import Mathlib

set_option maxHeartbeats 1000000

/-!
Shallow embedding of `src/main.rs` of `gnome-workspace-shortcuts-menu-rs`.

Pure string manipulation is embedded over `List Char` with hand-rolled
structural recursions (so that every definition reduces in the kernel);
each helper is documented with the Rust primitive it models.  The external
`gsettings` command is modelled by passing its result (`Except String _`)
as an argument; `unwrap` panics and `println!` calls are reified in the
`Outcome` type.
-/

/-- UTF-8 byte count of a character list. -/
def utf8LenChars : List Char → Nat
  | [] => 0
  | c :: cs => c.utf8Size + utf8LenChars cs

/-- Rust `String::len` (the UTF-8 byte length of the string). -/
def rustLen (s : String) : Nat := utf8LenChars s.data

/-- The first list is a prefix of the second (Rust `str::starts_with`,
also the kernel of the substring test below). -/
def charsPref : List Char → List Char → Bool
  | [], _ => true
  | _ :: _, [] => false
  | a :: as, b :: bs => a == b && charsPref as bs

/-- `needle` occurs as a contiguous substring of the list. -/
def subOcc (needle : List Char) : List Char → Bool
  | [] => needle.isEmpty
  | c :: rest => charsPref needle (c :: rest) || subOcc needle rest

/-- Rust `str::contains` with a string pattern (substring occurrence). -/
def strContains (hay needle : String) : Bool := subOcc needle.data hay.data

/-- Rust `str::starts_with` with a string pattern. -/
def strStartsWith (s pre : String) : Bool := charsPref pre.data s.data

/-- Fuel-indexed replacement of every non-overlapping occurrence of `pat`
(nonempty) left to right, as Rust `str::replace`; the fuel is the length of
the list, enough because every step consumes at least one character. -/
def replChars (pat rep : List Char) : Nat → List Char → List Char
  | 0, l => l
  | _ + 1, [] => []
  | fuel + 1, c :: rest =>
    if charsPref pat (c :: rest) then
      rep ++ replChars pat rep fuel (List.drop (pat.length - 1) rest)
    else
      c :: replChars pat rep fuel rest

/-- Rust `String::replace(pat, rep)` with a string pattern.  In this program
`rep` is always `""`, for which Rust's empty-pattern replacement is a no-op,
matching the guard here. -/
def replaceAll (s pat rep : String) : String :=
  if pat.data.isEmpty then s
  else String.mk (replChars pat.data rep.data s.data.length s.data)

/-- Rust `str::replace(['\'', '[', ']'], "")`: drop every occurrence of the
single quote and the square brackets. -/
def stripBrackets (s : String) : String :=
  String.mk (s.data.filter (fun c => !(c == Char.ofNat 39 || c == '[' || c == ']')))

/-- Rust `str::trim` (whitespace at both ends; the values this program trims
only carry ASCII whitespace, where the two notions agree). -/
def strTrim (s : String) : String :=
  String.mk (((s.data.dropWhile Char.isWhitespace).reverse.dropWhile
    Char.isWhitespace).reverse)

/-- Split a character list at every separator character (Rust `str::split`). -/
def splitChars (p : Char → Bool) : List Char → List (List Char)
  | [] => [[]]
  | c :: rest =>
    match splitChars p rest with
    | [] => [[]]
    | g :: gs => if p c then [] :: g :: gs else (c :: g) :: gs

/-- Rust `str::split(sep)`. -/
def strSplit (s : String) (p : Char → Bool) : List String :=
  (splitChars p s.data).map String.mk

/-- Rust `str::split_whitespace` (split on whitespace runs, no empty pieces). -/
def splitWhitespace (s : String) : List String :=
  (strSplit s (fun c => c.isWhitespace)).filter (fun t => t != "")

/-- First-match association lookup.  With insertion modelled as `cons`, a
later insert shadows an earlier one, exactly the `HashMap::insert`/`get`
semantics the program relies on. -/
def alookup {α β : Type} [DecidableEq α] : List (α × β) → α → Option β
  | [], _ => none
  | (k, v) :: rest, key => if k = key then some v else alookup rest key

/-- The `Modifier` struct. -/
structure Modifier where
  name : String
  gsettings_value : String
deriving DecidableEq

/-- `get_vec`: the fixed modifier list. -/
def get_vec : List Modifier :=
  [⟨"NONE", ""⟩, ⟨"ALT", "<Alt>"⟩, ⟨"CTRL", "<Ctrl>"⟩,
   ⟨"SUPER", "<Super>"⟩, ⟨"SHIFT", "<Shift>"⟩, ⟨"SHIFT+SUPER", "<Shift><Super>"⟩]

/-- `const EMPTY_KEYBINDING: &str = "[\"\"]";`. -/
def EMPTY_KEYBINDING : String := "[\"\"]"

/-- Stable insertion (descending by byte length of the gsettings string) used
to model `m_vals.sort_by(|a, b| b.1.gsettings_value.len().cmp(&a.1.gsettings_value.len()))`,
which is a stable sort: an element arriving later goes after every already
placed element of greater or equal length. -/
def insertDesc (x : Nat × Modifier) : List (Nat × Modifier) → List (Nat × Modifier)
  | [] => [x]
  | y :: ys =>
    if rustLen x.2.gsettings_value ≤ rustLen y.2.gsettings_value then
      y :: insertDesc x ys
    else x :: y :: ys

/-- Stable insertion sort, descending by gsettings string length. -/
def sortDescByLen (l : List (Nat × Modifier)) : List (Nat × Modifier) :=
  l.foldl (fun acc x => insertDesc x acc) []

/-- Pair every element with its index (the loop that builds `m_vals`,
remembering the original index of the modifier vec). -/
def enumFrom {α : Type} : Nat → List α → List (Nat × α)
  | _, [] => []
  | i, x :: xs => (i, x) :: enumFrom (i + 1) xs

/-- `m_vals`: the modifiers paired with their original indices. -/
def m_vals : List (Nat × Modifier) := enumFrom 0 get_vec

/-- The selection loop of `get_gsettings_value_from_config`: the first sorted
candidate whose gsettings string is nonempty and contained in the stored
value wins; otherwise the index is left as it was. -/
def selectLoop (stored : String) (prev : Nat) : List (Nat × Modifier) → Nat
  | [] => prev
  | (i, m) :: rest =>
    if !(m.gsettings_value == "") && strContains stored m.gsettings_value then i
    else selectLoop stored prev rest

/-- Modifier detection on a stored keybinding string (lines 218-233). -/
def selectModifierIndex (stored : String) (prev : Nat) : Nat :=
  selectLoop stored prev (sortDescByLen m_vals)

/-- Keysym extraction (lines 238-244): remove the detected modifier string,
the quote/bracket characters and `"@as"`, then trim. -/
def extractKeysym (stored m : String) : String :=
  strTrim (replaceAll (stripBrackets (replaceAll stored m "")) "@as" "")

/-- `match map.get(x) { Some(y) => y.to_string(), None => x.to_string() }`:
table translation with identity fallback (lines 246-249 and 290-293). -/
def lookupOrId (m : List (String × String)) (s : String) : String :=
  match alookup m s with
  | some k => k
  | none => s

/-- The `WorkspaceKeybinding` struct. -/
structure WorkspaceKeybinding where
  modifier : String
  modifier_index : Nat
  gsettings_key : String
  gsettings_value : String
  label : String
  keybinding : String
  converted_keybinding : String
deriving DecidableEq

/-- Rust `modifier_vec[i]`.  Indexing out of bounds panics in Rust; the
default is never returned because the index stays in bounds (claim C8). -/
def modifierAt (i : Nat) : Modifier := List.getD get_vec i ⟨"", ""⟩

/-- `get_gsettings_value_from_config`, slot level (lines 214-251).  The
result of the external `gsettings get` is the `getRes` argument; `?`
propagates its error before the slot is touched. -/
def get_gsettings_value_from_config (keysym_to_key : List (String × String))
    (getRes : Except String String) (v : WorkspaceKeybinding) :
    Except String WorkspaceKeybinding :=
  match getRes with
  | .error e => .error e
  | .ok stored =>
    let v1 := { v with gsettings_value := stored }
    let idx := selectModifierIndex stored v1.modifier_index
    let m := (modifierAt idx).gsettings_value
    let keysym := extractKeysym stored m
    .ok { v1 with modifier_index := idx,
                  keybinding := lookupOrId keysym_to_key keysym }

/-- `BTreeMap<usize, WorkspaceKeybinding>` as a key-sorted association list;
`insert` overwrites an existing key and keeps the order sorted. -/
def btreeInsert (k : Nat) (v : WorkspaceKeybinding) :
    List (Nat × WorkspaceKeybinding) → List (Nat × WorkspaceKeybinding)
  | [] => [(k, v)]
  | (k0, v0) :: rest =>
    if k < k0 then (k, v) :: (k0, v0) :: rest
    else if k = k0 then (k, v) :: rest
    else (k0, v0) :: btreeInsert k v rest

/-- A freshly initialised slot as built inside `gen_workspace_keybinding_map`:
modifier `NONE`, modifier index `0`, and empty value/keybinding strings. -/
def mkSlot (key label : String) : WorkspaceKeybinding :=
  ⟨"NONE", 0, key, "", label, "", ""⟩

/-- `gen_workspace_keybinding_map` (lines 182-212): slots `0..9` for
`switch-to-workspace-1..10`, slots `10..19` for `move-to-workspace-1..10`. -/
def gen_workspace_keybinding_map : List (Nat × WorkspaceKeybinding) :=
  let m := (List.range 10).foldl
    (fun m i => btreeInsert i
      (mkSlot ("switch-to-workspace-" ++ toString (i + 1))
              ("Switch to workspace " ++ toString (i + 1))) m) []
  (List.range 10).foldl
    (fun m i => btreeInsert (i + 10)
      (mkSlot ("move-to-workspace-" ++ toString (i + 1))
              ("Move window to workspace " ++ toString (i + 1))) m) m

/-- `map.get_mut(&i)` followed by an in-place update through `f`, which may
propagate a command error.  In the program the key is always present (the
loops iterate over the map's own keys); on an absent key the `unwrap` would
panic and no entry changes either way. -/
def mapUpdateE (f : WorkspaceKeybinding → Except String WorkspaceKeybinding)
    (i : Nat) :
    List (Nat × WorkspaceKeybinding) →
      Except String (List (Nat × WorkspaceKeybinding))
  | [] => .ok []
  | (k, v) :: rest =>
    if k = i then
      match f v with
      | .error e => .error e
      | .ok v2 => .ok ((k, v2) :: rest)
    else
      match mapUpdateE f i rest with
      | .error e => .error e
      | .ok rest2 => .ok ((k, v) :: rest2)

/-- What a handler does with a command failure: continue normally, print the
error (`println!`), or `unwrap`/terminate (a Rust panic). -/
inductive Outcome where
  | ok : Outcome
  | printed : String → Outcome
  | panicked : String → Outcome
deriving DecidableEq

/-- What the UI delivered to a slot's row during one frame: a click on entry
`i` of the modifier combo box, an edit of the keybinding text, and whether
the Overwrite button was clicked. -/
structure RowEvent where
  clickedModifier : Option Nat
  typedText : Option String
  clickedOverwrite : Bool

/-- Results of the external commands run when Overwrite is clicked: the
`gsettings set` and the re-read `gsettings get` that follows on success. -/
structure RowEnv where
  setRes : Except String Unit
  getRes : Except String String

/-- Result of one processing pass of a slot's row: the new slot, the
key/value pair passed to `gsettings set` (if Overwrite was clicked), and the
failure handling outcome. -/
structure RowResult where
  slot : WorkspaceKeybinding
  sent : Option (String × String)
  outcome : Outcome
deriving DecidableEq

/-- Lines 284-288: cut the entered text down to its first character whenever
its byte length exceeds 1 (`selection.keybinding.len() > 1`); the indexing
`chars()[0]` cannot panic because such a string is nonempty. -/
def truncate_keybinding (s : String) : String :=
  if 1 < rustLen s then
    match s.data with
    | [] => s
    | c :: _ => String.mk [c]
  else s

/-- `workspace_keybinding_input` (lines 259-323): one processing pass of a
slot's row.  In order: apply a modifier-combo click, apply a text edit,
truncate the text, translate it and format the bracketed literal, and on
Overwrite run `gsettings set` (printing its error) followed on success by a
re-read whose result is `unwrap`ped (a panic on error). -/
def workspace_keybinding_input
    (key_to_keysym keysym_to_key : List (String × String))
    (ev : RowEvent) (env : RowEnv) (sel : WorkspaceKeybinding) : RowResult :=
  let sel1 :=
    match ev.clickedModifier with
    | some i => { sel with modifier := (modifierAt i).name, modifier_index := i }
    | none => sel
  let sel2 :=
    match ev.typedText with
    | some t => { sel1 with keybinding := t }
    | none => sel1
  let sel3 := { sel2 with keybinding := truncate_keybinding sel2.keybinding }
  let keybind := lookupOrId key_to_keysym sel3.keybinding
  let sel4 := { sel3 with converted_keybinding :=
    "['" ++ (modifierAt sel3.modifier_index).gsettings_value ++ keybind ++ "']" }
  if ev.clickedOverwrite then
    let sent := some (sel4.gsettings_key, sel4.converted_keybinding)
    match env.setRes with
    | .error e => { slot := sel4, sent := sent, outcome := .printed e }
    | .ok _ =>
      match get_gsettings_value_from_config keysym_to_key env.getRes sel4 with
      | .ok sel5 => { slot := sel5, sent := sent, outcome := .ok }
      | .error e => { slot := sel4, sent := sent, outcome := .panicked e }
  else { slot := sel4, sent := none, outcome := .ok }

/-- The loop of `disable_switch_to_application_shortcuts` (lines 92-97) over
a list of ids: each iteration invokes
`gsettings set org.gnome.shell.keybindings switch-to-application-<i>` with
`EMPTY_KEYBINDING`; `f i` is the result of that invocation and `?` returns
the first error.  The list records the invocations attempted, in order. -/
def disableLoop (f : Nat → Except String Unit) :
    List Nat → List (Nat × String) × Except String Unit
  | [] => ([], .ok ())
  | i :: rest =>
    match f i with
    | .error e => ([(i, EMPTY_KEYBINDING)], .error e)
    | .ok _ =>
      let r := disableLoop f rest
      ((i, EMPTY_KEYBINDING) :: r.1, r.2)

/-- `disable_switch_to_application_shortcuts`: ids `1..10` (exclusive). -/
def disable_switch_to_application_shortcuts (f : Nat → Except String Unit) :
    List (Nat × String) × Except String Unit :=
  disableLoop f (List.range' 1 9)

/-- Lines 333-338: the workspace-count Overwrite handler.  The parse of the
text field, the `gsettings set` and the re-read are each `unwrap`ped: every
failure is a panic, nothing is printed. -/
def numWorkspacesOverwrite (parseRes : Except String Nat)
    (setRes : Except String Unit) (getRes : Except String Nat) : Outcome :=
  match parseRes with
  | .error e => .panicked e
  | .ok _ =>
    match setRes with
    | .error e => .panicked e
    | .ok _ =>
      match getRes with
      | .error e => .panicked e
      | .ok _ => .ok

/-- Lines 341-348: the disable-app-shortcuts button `unwrap`s its result. -/
def disableClickOutcome (r : Except String Unit) : Outcome :=
  match r with
  | .error e => .panicked e
  | .ok _ => .ok

/-- `MyApp::new` (lines 159-166): the `Result` of the startup read of all
slots is dropped on line 163, so `cfgRes` errors are silently ignored; the
workspace-count read on line 164 is `unwrap`ped. -/
def newAppOutcome (cfgRes : Except String Unit)
    (numRes : Except String Nat) : Outcome :=
  match cfgRes, numRes with
  | _, .error e => .panicked e
  | _, .ok _ => .ok

/-- One line of the keysym file inside `init_keysyms`: when it has at least
three whitespace-separated fields `s`, the inserted pair is
`(s[0], s[2])` = (keysym, key name). -/
def parseLine (line : String) : Option (String × String) :=
  let s := splitWhitespace line
  if 3 ≤ s.length then some (List.getD s 0 "", List.getD s 2 "") else none

/-- The (keysym, key) pairs of the lines of the file that `init_keysyms`
inserts, in file order. -/
def parsedPairs (file : String) : List (String × String) :=
  (strSplit file (fun c => c == '\n')).filterMap parseLine

/-- Insert the parsed pairs into the two hash maps
(`key_to_keysym.insert(s[2], s[0])` and `keysym_to_key.insert(s[0], s[2])`);
insertion is `cons` with first-match lookup, so a later insert overwrites an
earlier one exactly as `HashMap::insert` does. -/
def foldPairs : List (String × String) →
    List (String × String) → List (String × String) →
    List (String × String) × List (String × String)
  | [], km, sk => (km, sk)
  | (sym, key) :: rest, km, sk => foldPairs rest ((key, sym) :: km) ((sym, key) :: sk)

/-- `init_keysyms` (lines 168-180) as a function of the bundled file's text:
returns `(key_to_keysym, keysym_to_key)`. -/
def init_keysyms (file : String) :
    List (String × String) × List (String × String) :=
  foldPairs (parsedPairs file) [] []

/-- Modelled from the spec: the bundled text resource `gnome-keysyms.txt`
(`include_str!("../gnome-keysyms.txt")`) is missing from the sources
available here.  The spec describes it as a static symbol table translating
between human-readable key names and keysyms, loaded line by line with the
keysym in the first whitespace-separated field and the key name in the
third.  A representative table in that format. -/
def gnomeKeysymsTxt : String :=
  "exclam 0x0021 !\nat 0x0040 @\nnumbersign 0x0023 #\ndollar 0x0024 $\npercent 0x0025 %\nampersand 0x0026 &\nasterisk 0x002a *\nplus 0x002b +"

/-- The modifier selection exactly as claim C1 words it: candidates tested
longest-first, selecting the first non-empty candidate that occurs as a
PREFIX of the stored string, index 0 (`NONE`) when none does. -/
def claimSelectByPref (stored : String) : Nat :=
  if strStartsWith stored "<Shift><Super>" then 5
  else if strStartsWith stored "<Super>" then 3
  else if strStartsWith stored "<Shift>" then 4
  else if strStartsWith stored "<Ctrl>" then 2
  else if strStartsWith stored "<Alt>" then 1
  else 0

/-- The selection the code implements, stated from the amended claim:
candidates tested longest-first (original list order on equal lengths, so
`SUPER` before `SHIFT`), selecting the first non-empty candidate that occurs
as a substring of the stored string; when none occurs the index is left
unchanged. -/
def claimSelectBySub (stored : String) (prev : Nat) : Nat :=
  if strContains stored "<Shift><Super>" then 5
  else if strContains stored "<Super>" then 3
  else if strContains stored "<Shift>" then 4
  else if strContains stored "<Ctrl>" then 2
  else if strContains stored "<Alt>" then 1
  else prev

/-- The first character of a string, as a string (`""` when empty). -/
def firstCharStr (s : String) : String :=
  match s.data with
  | [] => ""
  | c :: _ => String.mk [c]

/-- Per-slot invariant of claim C8. -/
def ModIndexInBounds (st : List (Nat × WorkspaceKeybinding)) : Prop :=
  ∀ p ∈ st, p.2.modifier_index < get_vec.length
/-! ### Helper lemmas -/

theorem lookupOrId_eq_getD (m : List (String × String)) (s : String) :
    lookupOrId m s = (alookup m s).getD s := by
  unfold lookupOrId
  cases alookup m s <;> rfl

theorem length_le_utf8LenChars (l : List Char) : l.length ≤ utf8LenChars l := by
  induction l with
  | nil => simp [utf8LenChars]
  | cons c cs ih =>
    simp only [utf8LenChars, List.length_cons]
    have := Char.utf8Size_pos c
    omega

theorem truncate_keybinding_length (s : String) :
    (truncate_keybinding s).data.length ≤ 1 := by
  unfold truncate_keybinding
  split
  · split
    · next h _ => simp_all
    · simp
  · next h =>
    have := length_le_utf8LenChars s.data
    unfold rustLen at h
    omega

theorem truncate_keybinding_first (s : String) (h : 1 < rustLen s) :
    truncate_keybinding s = firstCharStr s := by
  unfold truncate_keybinding firstCharStr
  rw [if_pos h]
  match hd : s.data with
  | [] =>
    unfold rustLen at h
    rw [hd] at h
    simp [utf8LenChars] at h
  | c :: _ => rfl

theorem selectModifierIndex_eq_claim (stored : String) (prev : Nat) :
    selectModifierIndex stored prev = claimSelectBySub stored prev := rfl

theorem selectModifierIndex_cases (stored : String) (prev : Nat) :
    selectModifierIndex stored prev = prev ∨
      selectModifierIndex stored prev < get_vec.length := by
  rw [selectModifierIndex_eq_claim]
  unfold claimSelectBySub
  have h6 : get_vec.length = 6 := rfl
  repeat' split
  all_goals first
    | (left; rfl)
    | (right; omega)

theorem get_config_mod_bound (sk : List (String × String))
    (res : Except String String) (v v2 : WorkspaceKeybinding)
    (hv : v.modifier_index < get_vec.length)
    (h : get_gsettings_value_from_config sk res v = .ok v2) :
    v2.modifier_index < get_vec.length := by
  cases res with
  | error e => simp [get_gsettings_value_from_config] at h
  | ok stored =>
    simp only [get_gsettings_value_from_config, Except.ok.injEq] at h
    rcases selectModifierIndex_cases stored v.modifier_index with hc | hc
    · subst h
      simpa [hc] using hv
    · subst h
      simpa using hc
theorem wki_slot_mod_cases (km sk : List (String × String)) (cm : Option Nat)
    (tt : Option String) (ow : Bool) (env : RowEnv) (sel : WorkspaceKeybinding) :
    (workspace_keybinding_input km sk ⟨cm, tt, ow⟩ env sel).slot.modifier_index =
      cm.getD sel.modifier_index ∨
    ∃ stored,
      (workspace_keybinding_input km sk ⟨cm, tt, ow⟩ env sel).slot.modifier_index =
        selectModifierIndex stored (cm.getD sel.modifier_index) := by
  obtain ⟨setRes, getRes⟩ := env
  cases cm <;> cases tt <;> cases ow <;> cases setRes <;> cases getRes <;>
    first
      | (left; rfl)
      | (right; exact ⟨_, rfl⟩)

theorem wki_mod_bound (km sk : List (String × String)) (cm : Option Nat)
    (tt : Option String) (ow : Bool) (env : RowEnv) (sel : WorkspaceKeybinding)
    (hsel : sel.modifier_index < get_vec.length)
    (hev : ∀ i, cm = some i → i < get_vec.length) :
    (workspace_keybinding_input km sk ⟨cm, tt, ow⟩ env sel).slot.modifier_index <
      get_vec.length := by
  have hmid : cm.getD sel.modifier_index < get_vec.length := by
    cases cm with
    | none => exact hsel
    | some i => exact hev i rfl
  rcases wki_slot_mod_cases km sk cm tt ow env sel with h | ⟨stored, h⟩
  · rw [h]; exact hmid
  · rw [h]
    rcases selectModifierIndex_cases stored (cm.getD sel.modifier_index) with hc | hc
    · rw [hc]; exact hmid
    · exact hc
theorem wki_sent_eq (km sk : List (String × String)) (cm : Option Nat)
    (tt : Option String) (env : RowEnv) (sel : WorkspaceKeybinding) :
    (workspace_keybinding_input km sk ⟨cm, tt, true⟩ env sel).sent =
      some (sel.gsettings_key,
        "['" ++ (modifierAt (cm.getD sel.modifier_index)).gsettings_value
             ++ lookupOrId km (truncate_keybinding (tt.getD sel.keybinding))
             ++ "']") := by
  obtain ⟨setRes, getRes⟩ := env
  cases cm <;> cases tt <;> cases setRes <;> cases getRes <;> rfl

theorem wki_keybinding_no_overwrite (km sk : List (String × String))
    (cm : Option Nat) (tt : Option String) (env : RowEnv)
    (sel : WorkspaceKeybinding) :
    (workspace_keybinding_input km sk ⟨cm, tt, false⟩ env sel).slot.keybinding =
      truncate_keybinding (tt.getD sel.keybinding) := by
  obtain ⟨setRes, getRes⟩ := env
  cases cm <;> cases tt <;> cases setRes <;> cases getRes <;> rfl

theorem wki_converted_no_overwrite (km sk : List (String × String))
    (cm : Option Nat) (tt : Option String) (env : RowEnv)
    (sel : WorkspaceKeybinding) :
    (workspace_keybinding_input km sk ⟨cm, tt, false⟩ env sel).slot.converted_keybinding =
      "['" ++ (modifierAt (cm.getD sel.modifier_index)).gsettings_value
           ++ lookupOrId km (truncate_keybinding (tt.getD sel.keybinding))
           ++ "']" := by
  obtain ⟨setRes, getRes⟩ := env
  cases cm <;> cases tt <;> cases setRes <;> cases getRes <;> rfl
/-! ### Claim theorems -/

/-- Claim C1, counterexample.  The claim selects the modifier by testing the
candidates longest-first as PREFIXES of the stored string, so on the stored
string `['<Alt>a']` (which starts with a bracket, not with a modifier) the
selection would stay `NONE` (index 0); the code tests containment and
selects `ALT` (index 1). -/
theorem c1_modifier_by_prefix_counterexample :
    claimSelectByPref "['<Alt>a']" = 0 ∧
      selectModifierIndex "['<Alt>a']" 0 = 1 := by decide

/-- Claim C1, amended: the candidates are tested longest-first (original
list order on equal lengths, so `SUPER` before `SHIFT`), and the selected
modifier is the first non-empty candidate occurring as a SUBSTRING of the
stored string; when none occurs the modifier index is left unchanged (index
0 = `NONE` on a freshly initialised slot). -/
theorem c1_modifier_by_substring :
    ∀ (stored : String) (prev : Nat),
      selectModifierIndex stored prev = claimSelectBySub stored prev :=
  fun stored prev => selectModifierIndex_eq_claim stored prev

/-- Claim C3: whenever the Overwrite button of a slot's row is clicked, the
value passed to the external `gsettings set` invocation (together with the
slot's unchanged gsettings key) is the single-element bracketed literal
`['<modifier-gsettings-string><keysym>']`, where the keysym is the
symbol-table translation of the slot's key text (the key text itself when it
is not in the table). -/
theorem c3_overwrite_sends_bracketed_literal :
    ∀ (km sk : List (String × String)) (cm : Option Nat) (tt : Option String)
      (env : RowEnv) (sel : WorkspaceKeybinding),
    (workspace_keybinding_input km sk ⟨cm, tt, true⟩ env sel).sent =
      some (sel.gsettings_key,
        "['" ++ (modifierAt (cm.getD sel.modifier_index)).gsettings_value
             ++ ((alookup km (truncate_keybinding (tt.getD sel.keybinding))).getD
                  (truncate_keybinding (tt.getD sel.keybinding))) ++ "']") := by
  intro km sk cm tt env sel
  rw [wki_sent_eq, lookupOrId_eq_getD]

/-- Claim C4, counterexample.  Not every failing settings-store access has
its error printed: after a successful `gsettings set`, a failing re-read is
`unwrap`ped and panics instead of being printed. -/
theorem c4_unwrap_counterexample :
    (workspace_keybinding_input [] [] ⟨none, none, true⟩
        ⟨.ok (), .error "read failed"⟩
        (mkSlot "switch-to-workspace-1" "Switch to workspace 1")).outcome =
      .panicked "read failed" ∧
    (workspace_keybinding_input [] [] ⟨none, none, true⟩
        ⟨.ok (), .error "read failed"⟩
        (mkSlot "switch-to-workspace-1" "Switch to workspace 1")).outcome ≠
      .printed "read failed" := by
  exact ⟨rfl, by decide⟩

/-- Claim C4, amended: only the `gsettings set` failure of a slot's
Overwrite button is printed; the re-read after a successful write, every
step of the workspace-count Overwrite handler and the disable-app-shortcuts
button are `unwrap`ped (the program panics on their errors), and the startup
read of the slots has its `Result` dropped (errors silently ignored) while
the startup workspace-count read is `unwrap`ped. -/
theorem c4_error_handling_amended :
    (∀ (km sk : List (String × String)) (cm : Option Nat) (tt : Option String)
       (sel : WorkspaceKeybinding) (e : String) (g : Except String String),
      (workspace_keybinding_input km sk ⟨cm, tt, true⟩ ⟨.error e, g⟩ sel).outcome =
        .printed e) ∧
    (∀ (km sk : List (String × String)) (cm : Option Nat) (tt : Option String)
       (sel : WorkspaceKeybinding) (e : String),
      (workspace_keybinding_input km sk ⟨cm, tt, true⟩ ⟨.ok (), .error e⟩ sel).outcome =
        .panicked e) ∧
    (∀ (e : String) (s : Except String Unit) (g : Except String Nat),
      numWorkspacesOverwrite (.error e) s g = .panicked e) ∧
    (∀ (n : Nat) (e : String) (g : Except String Nat),
      numWorkspacesOverwrite (.ok n) (.error e) g = .panicked e) ∧
    (∀ (n : Nat) (e : String),
      numWorkspacesOverwrite (.ok n) (.ok ()) (.error e) = .panicked e) ∧
    (∀ e : String, disableClickOutcome (.error e) = .panicked e) ∧
    (∀ (e : String) (n : Nat), newAppOutcome (.error e) (.ok n) = .ok) ∧
    (∀ (c : Except String Unit) (e : String),
      newAppOutcome c (.error e) = .panicked e) := by
  refine ⟨?_, ?_, ?_, ?_, ?_, ?_, ?_, ?_⟩
  · intro km sk cm tt sel e g
    cases cm <;> cases tt <;> rfl
  · intro km sk cm tt sel e
    cases cm <;> cases tt <;> rfl
  · intro e s g; rfl
  · intro n e g; rfl
  · intro n e; rfl
  · intro e; rfl
  · intro e n; rfl
  · intro c e; rfl

/-- Claim C9, counterexample.  A processing pass in which a successful
Overwrite re-read returns a keysym absent from the table leaves the slot's
keybinding text with more than one character (here `"abc"`), so the slot's
keybinding does not contain at most one character after every pass. -/
theorem c9_multichar_counterexample :
    (workspace_keybinding_input [] [] ⟨none, none, true⟩ ⟨.ok (), .ok "['abc']"⟩
        (mkSlot "switch-to-workspace-1" "Switch to workspace 1")).slot.keybinding =
      "abc" ∧
    ¬ ((workspace_keybinding_input [] [] ⟨none, none, true⟩ ⟨.ok (), .ok "['abc']"⟩
        (mkSlot "switch-to-workspace-1" "Switch to workspace 1")).slot.keybinding.data.length ≤ 1) := by
  exact ⟨rfl, by decide⟩

/-- Claim C9, amended: in each pass the entered text is cut to its first
character before conversion whenever it is longer than one byte, so the
truncated text has at most one character and the formatted settings value
always carries that single key; after a pass without an Overwrite click the
slot's keybinding therefore holds at most one character (only a successful
Overwrite re-read can leave a longer key name in the slot, until the next
pass truncates it). -/
theorem c9_truncation_amended :
    (∀ s : String, (truncate_keybinding s).data.length ≤ 1) ∧
    (∀ s : String, 1 < rustLen s → truncate_keybinding s = firstCharStr s) ∧
    (∀ (km sk : List (String × String)) (cm : Option Nat) (tt : Option String)
       (env : RowEnv) (sel : WorkspaceKeybinding),
      (workspace_keybinding_input km sk ⟨cm, tt, false⟩ env sel).slot.keybinding.data.length ≤ 1) ∧
    (∀ (km sk : List (String × String)) (cm : Option Nat) (tt : Option String)
       (env : RowEnv) (sel : WorkspaceKeybinding),
      (workspace_keybinding_input km sk ⟨cm, tt, false⟩ env sel).slot.converted_keybinding =
        "['" ++ (modifierAt (cm.getD sel.modifier_index)).gsettings_value
             ++ lookupOrId km (truncate_keybinding (tt.getD sel.keybinding)) ++ "']" ∧
      (truncate_keybinding (tt.getD sel.keybinding)).data.length ≤ 1) := by
  refine ⟨truncate_keybinding_length, truncate_keybinding_first, ?_, ?_⟩
  · intro km sk cm tt env sel
    rw [wki_keybinding_no_overwrite]
    exact truncate_keybinding_length _
  · intro km sk cm tt env sel
    exact ⟨wki_converted_no_overwrite km sk cm tt env sel,
      truncate_keybinding_length _⟩

/-- Witness for the amended claim C9 at the concrete entered text `"ab"`. -/
theorem c9_truncation_amended_witness :
    1 < rustLen "ab" ∧ truncate_keybinding "ab" = firstCharStr "ab" :=
  ⟨by decide, c9_truncation_amended.2.1 "ab" (by decide)⟩

/-- Claim C10: the key-name/keysym translation is total in both directions
with an identity fallback: the formatted settings value uses the key text
itself when the key-to-keysym table does not contain it, and a parsed slot
displays the extracted keysym itself when the keysym-to-key table does not
contain it. -/
theorem c10_translation_identity_fallback :
    (∀ (m : List (String × String)) (s : String),
      lookupOrId m s = (alookup m s).getD s) ∧
    (∀ (m : List (String × String)) (s : String),
      alookup m s = none → lookupOrId m s = s) ∧
    (∀ (km sk : List (String × String)) (cm : Option Nat) (tt : Option String)
       (env : RowEnv) (sel : WorkspaceKeybinding),
      alookup km (truncate_keybinding (tt.getD sel.keybinding)) = none →
      (workspace_keybinding_input km sk ⟨cm, tt, false⟩ env sel).slot.converted_keybinding =
        "['" ++ (modifierAt (cm.getD sel.modifier_index)).gsettings_value
             ++ truncate_keybinding (tt.getD sel.keybinding) ++ "']") ∧
    (∀ (sk : List (String × String)) (stored : String)
       (v v2 : WorkspaceKeybinding),
      get_gsettings_value_from_config sk (.ok stored) v = .ok v2 →
      alookup sk (extractKeysym stored
        (modifierAt (selectModifierIndex stored v.modifier_index)).gsettings_value) = none →
      v2.keybinding = extractKeysym stored
        (modifierAt (selectModifierIndex stored v.modifier_index)).gsettings_value) := by
  refine ⟨lookupOrId_eq_getD, ?_, ?_, ?_⟩
  · intro m s h
    unfold lookupOrId
    rw [h]
  · intro km sk cm tt env sel h
    rw [wki_converted_no_overwrite]
    unfold lookupOrId
    rw [h]
  · intro sk stored v v2 hok hnone
    simp only [get_gsettings_value_from_config, Except.ok.injEq] at hok
    subst hok
    show lookupOrId sk _ = _
    unfold lookupOrId
    rw [hnone]

/-- Witness for claim C10 on an empty table and the key text `"x"`. -/
theorem c10_translation_identity_fallback_witness :
    alookup ([] : List (String × String)) "x" = none ∧
      lookupOrId ([] : List (String × String)) "x" = "x" :=
  ⟨by decide, c10_translation_identity_fallback.2.1 [] "x" (by decide)⟩
theorem mapUpdateE_keys (f : WorkspaceKeybinding → Except String WorkspaceKeybinding)
    (i : Nat) :
    ∀ (st st2 : List (Nat × WorkspaceKeybinding)),
      mapUpdateE f i st = .ok st2 → st2.map Prod.fst = st.map Prod.fst := by
  intro st
  induction st with
  | nil =>
    intro st2 h
    simp only [mapUpdateE, Except.ok.injEq] at h
    subst h
    rfl
  | cons p rest ih =>
    obtain ⟨k, v⟩ := p
    intro st2 h
    unfold mapUpdateE at h
    by_cases hk : k = i
    · rw [if_pos hk] at h
      cases hf : f v with
      | error e => rw [hf] at h; exact absurd h (by simp)
      | ok v2 =>
        rw [hf] at h
        simp only [Except.ok.injEq] at h
        subst h
        rfl
    · rw [if_neg hk] at h
      cases hr : mapUpdateE f i rest with
      | error e => rw [hr] at h; exact absurd h (by simp)
      | ok rest2 =>
        rw [hr] at h
        simp only [Except.ok.injEq] at h
        subst h
        simpa using ih rest2 hr

theorem mapUpdateE_pred (P : WorkspaceKeybinding → Prop)
    (f : WorkspaceKeybinding → Except String WorkspaceKeybinding) (i : Nat)
    (hf : ∀ v v2, P v → f v = .ok v2 → P v2) :
    ∀ (st st2 : List (Nat × WorkspaceKeybinding)),
      (∀ p ∈ st, P p.2) → mapUpdateE f i st = .ok st2 → ∀ p ∈ st2, P p.2 := by
  intro st
  induction st with
  | nil =>
    intro st2 hP h
    simp only [mapUpdateE, Except.ok.injEq] at h
    subst h
    simp
  | cons q rest ih =>
    obtain ⟨k, v⟩ := q
    intro st2 hP h
    unfold mapUpdateE at h
    by_cases hk : k = i
    · rw [if_pos hk] at h
      cases hf2 : f v with
      | error e => rw [hf2] at h; exact absurd h (by simp)
      | ok v2 =>
        rw [hf2] at h
        simp only [Except.ok.injEq] at h
        subst h
        intro p hp
        rcases List.mem_cons.mp hp with hp | hp
        · subst hp
          exact hf v v2 (hP (k, v) (by simp)) hf2
        · exact hP p (List.mem_cons_of_mem _ hp)
    · rw [if_neg hk] at h
      cases hr : mapUpdateE f i rest with
      | error e => rw [hr] at h; exact absurd h (by simp)
      | ok rest2 =>
        rw [hr] at h
        simp only [Except.ok.injEq] at h
        subst h
        intro p hp
        rcases List.mem_cons.mp hp with hp | hp
        · subst hp
          exact hP (k, v) (by simp)
        · exact ih rest2 (fun q hq => hP q (List.mem_cons_of_mem _ hq)) hr p hp

/-- Claim C5: the keybinding slot map is fixed and hard-coded — exactly the
keys 0 through 19, keys 0-9 carrying `switch-to-workspace-1..10` and keys
10-19 carrying `move-to-workspace-1..10`, each initialised with modifier
`NONE`, modifier index 0 and empty value/keybinding strings — and the
per-slot update operation never adds or removes a slot. -/
theorem c5_fixed_slot_map :
    gen_workspace_keybinding_map.map Prod.fst = List.range 20 ∧
    (∀ i, i < 10 → alookup gen_workspace_keybinding_map i =
      some ⟨"NONE", 0, "switch-to-workspace-" ++ toString (i + 1), "",
            "Switch to workspace " ++ toString (i + 1), "", ""⟩) ∧
    (∀ i, i < 20 → 10 ≤ i → alookup gen_workspace_keybinding_map i =
      some ⟨"NONE", 0, "move-to-workspace-" ++ toString (i - 9), "",
            "Move window to workspace " ++ toString (i - 9), "", ""⟩) ∧
    (∀ (f : WorkspaceKeybinding → Except String WorkspaceKeybinding) (i : Nat)
       (st st2 : List (Nat × WorkspaceKeybinding)),
      mapUpdateE f i st = .ok st2 → st2.map Prod.fst = st.map Prod.fst) := by
  refine ⟨by decide, by decide, by decide, mapUpdateE_keys⟩

/-- Witness for claim C5 at slot 0 and slot 19. -/
theorem c5_fixed_slot_map_witness :
    alookup gen_workspace_keybinding_map 0 =
      some ⟨"NONE", 0, "switch-to-workspace-1", "", "Switch to workspace 1", "", ""⟩ ∧
    alookup gen_workspace_keybinding_map 19 =
      some ⟨"NONE", 0, "move-to-workspace-10", "", "Move window to workspace 10", "", ""⟩ :=
  ⟨c5_fixed_slot_map.2.1 0 (by decide), c5_fixed_slot_map.2.2.1 19 (by decide) (by decide)⟩

/-- Claim C8: the modifier index of every slot stays strictly below the
length (6) of the fixed modifier list — it holds of the generated map and is
preserved by reading a value from the settings store (slot and map level)
and by a row-processing pass whose combo-box click index is one of the list
entries — so every indexing of the modifier list by a slot's
`modifier_index` is in bounds. -/
theorem c8_modifier_index_in_bounds :
    ModIndexInBounds gen_workspace_keybinding_map ∧
    (∀ (sk : List (String × String)) (res : Except String String)
       (v v2 : WorkspaceKeybinding),
      v.modifier_index < get_vec.length →
      get_gsettings_value_from_config sk res v = .ok v2 →
      v2.modifier_index < get_vec.length) ∧
    (∀ (km sk : List (String × String)) (cm : Option Nat) (tt : Option String)
       (ow : Bool) (env : RowEnv) (sel : WorkspaceKeybinding),
      sel.modifier_index < get_vec.length →
      (∀ i, cm = some i → i < get_vec.length) →
      (workspace_keybinding_input km sk ⟨cm, tt, ow⟩ env sel).slot.modifier_index <
        get_vec.length) ∧
    (∀ (sk : List (String × String)) (res : Except String String) (i : Nat)
       (st st2 : List (Nat × WorkspaceKeybinding)),
      ModIndexInBounds st →
      mapUpdateE (get_gsettings_value_from_config sk res) i st = .ok st2 →
      ModIndexInBounds st2) := by
  refine ⟨by unfold ModIndexInBounds; decide, get_config_mod_bound, wki_mod_bound, ?_⟩
  intro sk res i st st2 hst h
  exact mapUpdateE_pred (fun v => v.modifier_index < get_vec.length)
    (get_gsettings_value_from_config sk res) i
    (get_config_mod_bound sk res) st st2 hst h

/-- Witness for claim C8 on a concrete read of slot 0. -/
theorem c8_modifier_index_in_bounds_witness :
    (mkSlot "switch-to-workspace-1" "Switch to workspace 1").modifier_index <
      get_vec.length ∧
    get_gsettings_value_from_config [] (.ok "['<Super>1']")
        (mkSlot "switch-to-workspace-1" "Switch to workspace 1") =
      .ok ⟨"NONE", 3, "switch-to-workspace-1", "['<Super>1']",
           "Switch to workspace 1", "1", ""⟩ ∧
    (⟨"NONE", 3, "switch-to-workspace-1", "['<Super>1']",
      "Switch to workspace 1", "1", ""⟩ : WorkspaceKeybinding).modifier_index <
      get_vec.length :=
  ⟨by decide, rfl,
    c8_modifier_index_in_bounds.2.1 [] (.ok "['<Super>1']")
      (mkSlot "switch-to-workspace-1" "Switch to workspace 1") _ (by decide)
      rfl⟩
theorem disableLoop_all_ok (f : Nat → Except String Unit) :
    ∀ l : List Nat, (∀ i ∈ l, f i = .ok ()) →
      disableLoop f l = (l.map (fun i => (i, EMPTY_KEYBINDING)), .ok ()) := by
  intro l
  induction l with
  | nil => intro _; rfl
  | cons j rest ih =>
    intro h
    have hj : f j = .ok () := h j (by simp)
    have hrest := ih (fun i hi => h i (List.mem_cons_of_mem _ hi))
    simp [disableLoop, hj, hrest]

theorem disableLoop_first_error (f : Nat → Except String Unit) (e : String) :
    ∀ (n s j : Nat), s ≤ j → j < s + n →
      (∀ i, s ≤ i → i < j → f i = .ok ()) → f j = .error e →
      disableLoop f (List.range' s n) =
        ((List.range' s (j - s + 1)).map (fun i => (i, EMPTY_KEYBINDING)),
          .error e) := by
  intro n
  induction n with
  | zero => intro s j h1 h2 _ _; omega
  | succ n ih =>
    intro s j h1 h2 hok herr
    by_cases hsj : s = j
    · subst hsj
      have : s - s + 1 = 1 := by omega
      rw [this]
      show disableLoop f (s :: List.range' (s + 1) n) = _
      simp [disableLoop, herr, List.range']
    · have hs : s < j := lt_of_le_of_ne h1 hsj
      have hfs : f s = .ok () := hok s le_rfl hs
      show disableLoop f (s :: List.range' (s + 1) n) = _
      rw [disableLoop]
      rw [hfs]
      simp only
      rw [ih (s + 1) j (by omega) (by omega)
        (fun i hi1 hi2 => hok i (by omega) hi2) herr]
      have hj : j - s + 1 = (j - (s + 1) + 1) + 1 := by omega
      rw [hj]
      show _ = ((s :: List.range' (s + 1) (j - (s + 1) + 1)).map
        (fun i => (i, EMPTY_KEYBINDING)), Except.error e)
      simp
/-- Claim C6: disabling the application-switcher shortcuts writes the empty
single-element binding `["\""]` to `switch-to-application-<id>` for every id
from 1 to 9 inclusive, in ascending order; on the first failing command the
loop stops and returns that error, with exactly the invocations up to and
including the failing id attempted. -/
theorem c6_disable_app_shortcuts :
    (∀ f : Nat → Except String Unit,
      (∀ i, 1 ≤ i → i < 10 → f i = .ok ()) →
      disable_switch_to_application_shortcuts f =
        ((List.range' 1 9).map (fun i => (i, EMPTY_KEYBINDING)), .ok ())) ∧
    (∀ (f : Nat → Except String Unit) (j : Nat) (e : String),
      1 ≤ j → j < 10 →
      (∀ i, 1 ≤ i → i < j → f i = .ok ()) → f j = .error e →
      disable_switch_to_application_shortcuts f =
        ((List.range' 1 j).map (fun i => (i, EMPTY_KEYBINDING)), .error e)) := by
  constructor
  · intro f h
    apply disableLoop_all_ok
    intro i hi
    have : 1 ≤ i ∧ i < 1 + 9 := by
      have := List.mem_range'_1.mp hi
      omega
    exact h i this.1 (by omega)
  · intro f j e h1 h2 hok herr
    unfold disable_switch_to_application_shortcuts
    have hj : j - 1 + 1 = j := by omega
    rw [← hj]
    exact disableLoop_first_error f e 9 1 j h1 (by omega) hok herr

/-- Witness for claim C6: all nine writes succeed, and a run whose third
command fails stops after ids 1, 2, 3. -/
theorem c6_disable_app_shortcuts_witness :
    ((∀ i, 1 ≤ i → i < 10 →
        (fun _ : Nat => (Except.ok () : Except String Unit)) i = .ok ()) ∧
      disable_switch_to_application_shortcuts (fun _ => .ok ()) =
        ((List.range' 1 9).map (fun i => (i, EMPTY_KEYBINDING)), .ok ())) ∧
    disable_switch_to_application_shortcuts
        (fun i => if i = 3 then .error "boom" else .ok ()) =
      ((List.range' 1 3).map (fun i => (i, EMPTY_KEYBINDING)), .error "boom") :=
  ⟨⟨fun _ _ _ => rfl,
    c6_disable_app_shortcuts.1 (fun _ => .ok ()) (fun _ _ _ => rfl)⟩,
    c6_disable_app_shortcuts.2 (fun i => if i = 3 then .error "boom" else .ok ())
      3 "boom" (by decide) (by decide)
      (fun i hi1 hi2 => by interval_cases i <;> rfl) rfl⟩
theorem foldPairs_inverse :
    ∀ (ps km sk : List (String × String)),
      (∀ k s, alookup km k = some s ↔ alookup sk s = some k) →
      (∀ p ∈ ps, alookup km p.2 = none ∧ alookup sk p.1 = none) →
      (ps.map Prod.fst).Nodup → (ps.map Prod.snd).Nodup →
      ∀ k s, alookup (foldPairs ps km sk).1 k = some s ↔
             alookup (foldPairs ps km sk).2 s = some k := by
  intro ps
  induction ps with
  | nil =>
    intro km sk hinv _ _ _
    exact hinv
  | cons p rest ih =>
    obtain ⟨sym, key⟩ := p
    intro km sk hinv hfresh hnf hns
    have hkm : alookup km key = none := (hfresh (sym, key) (by simp)).1
    have hsk : alookup sk sym = none := (hfresh (sym, key) (by simp)).2
    have hnf2 : (sym :: rest.map Prod.fst).Nodup := by simpa using hnf
    have hns2 : (key :: rest.map Prod.snd).Nodup := by simpa using hns
    have hsymrest : sym ∉ rest.map Prod.fst := (List.nodup_cons.mp hnf2).1
    have hkeyrest : key ∉ rest.map Prod.snd := (List.nodup_cons.mp hns2).1
    show ∀ k s,
      alookup (foldPairs rest ((key, sym) :: km) ((sym, key) :: sk)).1 k = some s ↔
      alookup (foldPairs rest ((key, sym) :: km) ((sym, key) :: sk)).2 s = some k
    apply ih
    · intro k s
      simp only [alookup]
      by_cases hk : key = k <;> by_cases hs : sym = s
      · subst hk; subst hs
        simp
      · subst hk
        rw [if_pos rfl, if_neg hs]
        constructor
        · intro hcon
          injection hcon with hcon2
          exact absurd hcon2 hs
        · intro hcon
          have := (hinv key s).mpr hcon
          rw [hkm] at this
          exact absurd this (by simp)
      · subst hs
        rw [if_neg hk, if_pos rfl]
        constructor
        · intro hcon
          have := (hinv k sym).mp hcon
          rw [hsk] at this
          exact absurd this (by simp)
        · intro hcon
          injection hcon with hcon2
          exact absurd hcon2 hk
      · rw [if_neg hk, if_neg hs]
        exact hinv k s
    · intro p hp
      constructor
      · show alookup ((key, sym) :: km) p.2 = none
        simp only [alookup]
        rw [if_neg (by
          intro hcon
          exact hkeyrest (hcon ▸ List.mem_map_of_mem Prod.snd hp))]
        exact (hfresh p (List.mem_cons_of_mem _ hp)).1
      · show alookup ((sym, key) :: sk) p.1 = none
        simp only [alookup]
        rw [if_neg (by
          intro hcon
          exact hsymrest (hcon ▸ List.mem_map_of_mem Prod.fst hp))]
        exact (hfresh p (List.mem_cons_of_mem _ hp)).2
    · exact (List.nodup_cons.mp hnf2).2
    · exact (List.nodup_cons.mp hns2).2
/-- Claim C7, counterexample.  The two lookup maps are not mutual inverses
for every input file text: on the file `"a x k\nb y k"` (two lines pairing
the key name `k` with the keysyms `a` and `b`), `keysym_to_key` maps `a` to
`k` but `key_to_keysym` maps `k` to `b`, not back to `a`. -/
theorem c7_duplicate_key_counterexample :
    alookup (init_keysyms "a x k\nb y k").2 "a" = some "k" ∧
    alookup (init_keysyms "a x k\nb y k").1 "k" = some "b" ∧
    alookup (init_keysyms "a x k\nb y k").1 "k" ≠ some "a" := by decide

/-- Claim C7, amended: for every input file text in which no key name and no
keysym occurs in two parsed lines (the parsed pairs are duplicate-free in
both components), the two lookup maps built by `init_keysyms` are mutual
inverses: `key_to_keysym` maps `k` to `s` exactly when `keysym_to_key` maps
`s` to `k`. -/
theorem c7_inverse_maps_amended :
    ∀ file : String,
      ((parsedPairs file).map Prod.fst).Nodup →
      ((parsedPairs file).map Prod.snd).Nodup →
      ∀ k s, alookup (init_keysyms file).1 k = some s ↔
             alookup (init_keysyms file).2 s = some k := by
  intro file hnf hns
  unfold init_keysyms
  apply foldPairs_inverse
  · intro k s
    constructor <;> intro h <;> exact absurd h (by simp [alookup])
  · intro p _
    exact ⟨rfl, rfl⟩
  · exact hnf
  · exact hns

/-- Witness for the amended claim C7 on the modelled bundled table. -/
theorem c7_inverse_maps_amended_witness :
    ((parsedPairs gnomeKeysymsTxt).map Prod.fst).Nodup ∧
    ((parsedPairs gnomeKeysymsTxt).map Prod.snd).Nodup ∧
    (alookup (init_keysyms gnomeKeysymsTxt).1 "!" = some "exclam" ↔
      alookup (init_keysyms gnomeKeysymsTxt).2 "exclam" = some "!") :=
  ⟨by decide, by decide,
    c7_inverse_maps_amended gnomeKeysymsTxt (by decide) (by decide) "!" "exclam"⟩
/-- Claim C2: for every stored value of the exact form
`['<modifier><keysym>']` — the modifier one of the fixed gsettings strings
or absent, the keysym present in the (modelled) bundled symbol table —
parsing the value into a fresh slot (modifier detection, keysym extraction,
table lookup) and re-formatting through a processing pass re-produces the
identical single-element bracketed literal. -/
theorem c2_parse_format_roundtrip :
    ∀ i, i < get_vec.length → ∀ p ∈ parsedPairs gnomeKeysymsTxt,
      (Except.map
        (fun v => (workspace_keybinding_input (init_keysyms gnomeKeysymsTxt).1
          (init_keysyms gnomeKeysymsTxt).2 ⟨none, none, false⟩ ⟨.ok (), .ok ""⟩
          v).slot.converted_keybinding)
        (get_gsettings_value_from_config (init_keysyms gnomeKeysymsTxt).2
          (.ok ("['" ++ (modifierAt i).gsettings_value ++ p.1 ++ "']"))
          (mkSlot "switch-to-workspace-1" "Switch to workspace 1"))).toOption =
      some ("['" ++ (modifierAt i).gsettings_value ++ p.1 ++ "']") := by decide

/-- Witness for claim C2: the `ALT` modifier with the keysym `exclam`. -/
theorem c2_parse_format_roundtrip_witness :
    1 < get_vec.length ∧ ("exclam", "!") ∈ parsedPairs gnomeKeysymsTxt ∧
    (Except.map
      (fun v => (workspace_keybinding_input (init_keysyms gnomeKeysymsTxt).1
        (init_keysyms gnomeKeysymsTxt).2 ⟨none, none, false⟩ ⟨.ok (), .ok ""⟩
        v).slot.converted_keybinding)
      (get_gsettings_value_from_config (init_keysyms gnomeKeysymsTxt).2
        (.ok ("['" ++ (modifierAt 1).gsettings_value ++ "exclam" ++ "']"))
        (mkSlot "switch-to-workspace-1" "Switch to workspace 1"))).toOption =
      some ("['" ++ (modifierAt 1).gsettings_value ++ "exclam" ++ "']") :=
  ⟨by decide, by decide,
    c2_parse_format_roundtrip 1 (by decide) ("exclam", "!") (by decide)⟩
